import Mathlib

/-!
Verification of the authenticated image-storage backend (src/backend/server.py).

The development shallowly embeds the parts of `server.py` that the claims are
about: the token-expiry computation of `create_access_token`, the upload
validation gates and normalization pipeline of `upload_image` / `process_image`,
and the owner-scoped store operations behind `get_images` and `delete_image`.
The MongoDB collections are modelled as Lean lists; `find(query).sort(..., -1)
.to_list(100)` becomes filter / mergeSort / take, and `delete_one` becomes
`List.eraseP` (delete the first matching document).  The PIL image library is
external to the repository: decoding (`Image.open`) and re-encoding
(`Image.save`) are abstract fallible operations, while `convert` and
`thumbnail` are modelled from the library's documented semantics (mode change,
and the box-fitting size computation carried out in exact rational arithmetic).
-/

/-- An HTTP error response, as raised by `HTTPException(status_code=..., detail=...)`. -/
structure HTTPError where
  status_code : Nat
  detail : String
deriving DecidableEq

/-- `ACCESS_TOKEN_EXPIRE_MINUTES = 30` (server.py line 38).  Minutes. -/
def ACCESS_TOKEN_EXPIRE_MINUTES : Int := 30

/-- The absolute expiry stamped into the token by `create_access_token`
(server.py lines 101-109), in minutes.  `expires_delta` is the optional
`timedelta` argument; the source tests it with `if expires_delta:`, which is
Python truthiness, so a zero delta is falsy and falls through to the
15-minute default exactly like `None` does. -/
def create_access_token_expire (now : Int) (expires_delta : Option Int) : Int :=
  match expires_delta with
  | some d => if d ≠ 0 then now + d else now + 15
  | none => now + 15

/-- The expiry produced on the `register` / `login` paths, which both call
`create_access_token` with `expires_delta = timedelta(minutes=ACCESS_TOKEN_EXPIRE_MINUTES)`
(server.py lines 186-189 and 210-213). -/
def register_token_expire (now : Int) : Int :=
  create_access_token_expire now (some ACCESS_TOKEN_EXPIRE_MINUTES)

/-- A document of the `users` collection (model `User`, server.py lines 42-47). -/
structure UserRec where
  id : String
  username : String
  email : String
  hashed_password : String
  created_at : Nat
deriving DecidableEq

/-- A document of the `images` collection (model `ImageItem`, server.py lines 69-78).
`created_at` is an abstract timestamp. -/
structure ImageRecord where
  id : String
  user_id : String
  filename : String
  caption : String
  is_private : Bool
  image_data : String
  content_type : String
  file_size : Nat
  created_at : Nat
deriving DecidableEq

/-- The persistent store: the two collections `db.users` and `db.images`. -/
structure DBState where
  users : List UserRec
  images : List ImageRecord
deriving DecidableEq

/-- The Mongo query built by `get_images` (server.py lines 265-267):
`{"user_id": current_user.id}`, plus `{"is_private": private}` when the
`private` query parameter is supplied. -/
def imageQueryMatches (uid : String) (priv : Option Bool) (r : ImageRecord) : Bool :=
  r.user_id == uid &&
    (match priv with
     | none => true
     | some p => r.is_private == p)

/-- Comparison used to model `.sort("created_at", -1)`: descending creation time. -/
def createdDescLe (a b : ImageRecord) : Bool :=
  decide (b.created_at ≤ a.created_at)

/-- `get_images` (server.py lines 260-270): owner-scoped query, optional
visibility filter, sorted by `created_at` descending, `.to_list(100)`. -/
def get_images (images : List ImageRecord) (uid : String) (priv : Option Bool) :
    List ImageRecord :=
  (((images.filter (imageQueryMatches uid priv)).mergeSort createdDescLe).take 100)

/-- The filter passed to `delete_one` by `delete_image` (server.py line 277):
`{"id": image_id, "user_id": current_user.id}`. -/
def deleteQueryMatches (image_id uid : String) (r : ImageRecord) : Bool :=
  r.id == image_id && r.user_id == uid

/-- `delete_image` (server.py lines 272-280): `delete_one` removes the first
document matching both id and owner (`List.eraseP`); a deleted count of 0 is
mapped to HTTP 404, otherwise a success message is returned. -/
def delete_image (dbs : DBState) (image_id uid : String) :
    DBState × Except HTTPError String :=
  let p := deleteQueryMatches image_id uid
  let deleted_count : Nat := if dbs.images.any p then 1 else 0
  ({ dbs with images := List.eraseP p dbs.images },
    if deleted_count = 0 then
      Except.error { status_code := 404, detail := "Image not found" }
    else
      Except.ok "Image deleted successfully")

/-- A decoded PIL image: its color mode and pixel dimensions. -/
structure PILImage where
  mode : String
  width : Nat
  height : Nat
deriving DecidableEq

/-- The two byte-level PIL operations used by `process_image` that can fail with
an arbitrary exception: `Image.open` (decode) and `Image.save` (re-encode).
They are abstract: theorems quantify over every possible behaviour. -/
structure PILOps where
  openImage : List Nat → Except String PILImage
  save : PILImage → String → Except String (List Nat)

/-- `image.convert(mode)` produces an image in the requested mode with the same
dimensions (documented PIL semantics). -/
def pilConvert (img : PILImage) (m : String) : PILImage :=
  { img with mode := m }

/-- Python's `min(floor(number), ceil(number), key=key)` followed by
`max(..., 1)`: the body of PIL's `round_aspect` helper inside
`Image.thumbnail`.  Python's `min` returns its first argument on a key tie. -/
def roundAspect (number : ℚ) (key : Int → ℚ) : Int :=
  max (if key ⌊number⌋ ≤ key ⌈number⌉ then ⌊number⌋ else ⌈number⌉) 1

/-- Rounding key used by `Image.thumbnail` when the width is recomputed:
distance of the candidate aspect ratio from the true one. -/
def thumbKeyW (aspect : ℚ) (bh : Nat) (n : Int) : ℚ :=
  |aspect - (n : ℚ) / (bh : ℚ)|

/-- Rounding key used by `Image.thumbnail` when the height is recomputed. -/
def thumbKeyH (aspect : ℚ) (bw : Nat) (n : Int) : ℚ :=
  if n = 0 then 0 else |aspect - (bw : ℚ) / (n : ℚ)|

/-- The size computed by `image.thumbnail((bw, bh))` (documented PIL semantics,
carried out in exact rational arithmetic): no change when the image already
fits the box, otherwise the aspect ratio is kept and the binding dimension is
set to the box bound while the other is rounded to a nearby integer, at
least 1. -/
def pilThumbnailSize (w h bw bh : Nat) : Nat × Nat :=
  if bw ≥ w ∧ bh ≥ h then (w, h)
  else
    let aspect : ℚ := (w : ℚ) / (h : ℚ)
    if (bw : ℚ) / (bh : ℚ) ≥ aspect then
      ((roundAspect ((bh : ℚ) * aspect) (thumbKeyW aspect bh)).toNat, bh)
    else
      (bw, (roundAspect ((bw : ℚ) / aspect) (thumbKeyH aspect bw)).toNat)

/-- `image.thumbnail((bw, bh), LANCZOS)`: in-place resize to `pilThumbnailSize`;
the color mode is unchanged. -/
def pilThumbnail (img : PILImage) (bw bh : Nat) : PILImage :=
  { img with
    width := (pilThumbnailSize img.width img.height bw bh).1,
    height := (pilThumbnailSize img.width img.height bw bh).2 }

/-- The in-memory transformation applied by `process_image` between decode and
re-encode (server.py lines 137-144): convert to RGB when the mode is `RGBA`
or `P`, then thumbnail to 1920x1080 when either dimension exceeds that bound. -/
def normalizeImage (img : PILImage) : PILImage :=
  let img1 := if img.mode = "RGBA" ∨ img.mode = "P" then pilConvert img "RGB" else img
  if img1.width > 1920 ∨ img1.height > 1080 then pilThumbnail img1 1920 1080 else img1

/-- `format_map` (server.py lines 148-154). -/
def format_map : List (String × String) :=
  [("image/jpeg", "JPEG"), ("image/jpg", "JPEG"), ("image/png", "PNG"),
   ("image/gif", "GIF"), ("image/webp", "WEBP")]

/-- `format_map.get(content_type, "JPEG")` (server.py line 155). -/
def formatName (content_type : String) : String :=
  (format_map.lookup content_type).getD "JPEG"

/-- The base64 alphabet used by `base64.b64encode`. -/
def base64Chars : List Char :=
  "ABCDEFGHIJKLMNOPQRSTUVWXYZabcdefghijklmnopqrstuvwxyz0123456789+/".toList

/-- Character of the base64 alphabet at a 6-bit index. -/
def b64c (n : Nat) : Char :=
  base64Chars.getD n 'A'

/-- `base64.b64encode(...).decode()` on a byte list: standard base64 with `=`
padding and no line breaks. -/
def base64Encode : List Nat → String
  | [] => ""
  | [a] => String.mk [b64c (a / 4), b64c (a % 4 * 16), '=', '=']
  | [a, b] => String.mk [b64c (a / 4), b64c (a % 4 * 16 + b / 16), b64c (b % 16 * 4), '=']
  | a :: b :: c :: rest =>
    String.mk [b64c (a / 4), b64c (a % 4 * 16 + b / 16), b64c (b % 16 * 4 + c / 64),
      b64c (c % 64)] ++ base64Encode rest

/-- `process_image` (server.py lines 131-165): decode, normalize, re-encode in
the format looked up from the declared content type, base64-serialize, and
return the base64 string together with the re-encoded byte length.  Every
exception raised inside the `try` block (modelled as an `Except.error` of a
fallible step) is caught and re-raised as
`HTTPException(400, "Invalid image file: " + message)`. -/
def process_image (ops : PILOps) (file_data : List Nat) (content_type : String) :
    Except HTTPError (String × Nat) :=
  let body : Except String (String × Nat) :=
    match ops.openImage file_data with
    | Except.error e => Except.error e
    | Except.ok image =>
      match ops.save (normalizeImage image) (formatName content_type) with
      | Except.error e => Except.error e
      | Except.ok processed_data =>
        Except.ok (base64Encode processed_data, processed_data.length)
  match body with
  | Except.ok r => Except.ok r
  | Except.error e =>
    Except.error { status_code := 400, detail := "Invalid image file: " ++ e }

/-- `allowed_types` (server.py line 233). -/
def allowed_types : List String :=
  ["image/jpeg", "image/jpg", "image/png", "image/gif", "image/webp"]

/-- The validation sequence of `upload_image` (server.py lines 232-243):
content-type allow-list first, then the 10 MiB raw-size gate, then the
processing pipeline. -/
def upload_image (ops : PILOps) (content_type : String) (file_data : List Nat) :
    Except HTTPError (String × Nat) :=
  if content_type ∉ allowed_types then
    Except.error { status_code := 400, detail := "Invalid file type. Only JPEG, PNG, GIF, and WebP are allowed." }
  else if file_data.length > 10 * 1024 * 1024 then
    Except.error { status_code := 400, detail := "File too large. Maximum size is 10MB." }
  else
    process_image ops file_data content_type

/-- Written from the spec's words for claim C7 ("alpha channel or palette-based
color mode"): the PIL color modes carrying an alpha channel are `RGBA`, `LA`,
`PA`, `RGBa` and `La`, and the palette-based modes are `P` and `PA`, per the
image library's documented mode list.  This is the spec-side predicate, to be
compared with the code's test `image.mode in ("RGBA", "P")`. -/
def specAlphaOrPalette (mode : String) : Bool :=
  (["RGBA", "LA", "PA", "RGBa", "La", "P"] : List String).contains mode

/-- A PIL behaviour in which decoding and re-encoding always succeed: used to
exercise the gates on inputs that would decode as valid images. -/
def okOps : PILOps where
  openImage := fun _ => Except.ok { mode := "RGB", width := 1, height := 1 }
  save := fun _ _ => Except.ok [0]

/-- A PIL behaviour in which decoding always fails: a payload that is not a
parseable image. -/
def failOps : PILOps where
  openImage := fun _ => Except.error "cannot identify image file"
  save := fun _ _ => Except.error "save failed"

/-- **C3.** Any upload whose declared content type is not exactly one of the
five allowed MIME strings fails with `Invalid file type` (HTTP 400), whatever
the payload bytes are and whatever the image decoder would do with them: the
allow-list is checked first, before the size gate and before any decoding. -/
theorem C3_invalid_type_rejected (ops : PILOps) (content_type : String)
    (file_data : List Nat) (h : content_type ∉ allowed_types) :
    upload_image ops content_type file_data =
      Except.error { status_code := 400, detail := "Invalid file type. Only JPEG, PNG, GIF, and WebP are allowed." } := by
  unfold upload_image
  rw [if_pos h]

/-- Witness for C3: the declared type `text/plain` is rejected even though the
decoder (`okOps`) would happily accept the bytes. -/
theorem C3_witness :
    ("text/plain" ∉ allowed_types) ∧
    upload_image okOps "text/plain" [1, 2, 3] =
      Except.error { status_code := 400, detail := "Invalid file type. Only JPEG, PNG, GIF, and WebP are allowed." } :=
  ⟨by decide, C3_invalid_type_rejected okOps "text/plain" [1, 2, 3] (by decide)⟩

/-- **C4.** For an allowed declared type, a raw payload of more than
10 * 1024 * 1024 bytes fails with `File too large` (HTTP 400) no matter what
the decoder would make of it (the check runs on the raw bytes, before
decoding), and a payload of at most that size passes the gate: the upload
proceeds into the processing pipeline. -/
theorem C4_size_gate (ops : PILOps) (content_type : String) (file_data : List Nat)
    (h : content_type ∈ allowed_types) :
    (file_data.length > 10 * 1024 * 1024 →
      upload_image ops content_type file_data =
        Except.error { status_code := 400, detail := "File too large. Maximum size is 10MB." }) ∧
    (file_data.length ≤ 10 * 1024 * 1024 →
      upload_image ops content_type file_data = process_image ops file_data content_type) := by
  constructor
  · intro hbig
    unfold upload_image
    rw [if_neg (not_not_intro h), if_pos hbig]
  · intro hsmall
    unfold upload_image
    rw [if_neg (not_not_intro h), if_neg (by omega)]

/-- Witness for C4: an 10 MiB + 1 payload with an allowed type is rejected as
too large even with a decoder that would accept it. -/
theorem C4_witness :
    ("image/png" ∈ allowed_types) ∧
    upload_image okOps "image/png" (List.replicate (10 * 1024 * 1024 + 1) 0) =
      Except.error { status_code := 400, detail := "File too large. Maximum size is 10MB." } :=
  ⟨by decide,
    (C4_size_gate okOps "image/png" (List.replicate (10 * 1024 * 1024 + 1) 0) (by decide)).1
      (by rw [List.length_replicate]; omega)⟩

/-- **C5.** The processing pipeline never lets a raw failure escape: whatever
the decoder and encoder do on whatever input, `process_image` either succeeds
or returns HTTP 400 with detail `Invalid image file: ` followed by the
underlying error message. -/
theorem C5_pipeline_wraps_errors (ops : PILOps) (file_data : List Nat)
    (content_type : String) :
    (∃ r, process_image ops file_data content_type = Except.ok r) ∨
    (∃ msg, process_image ops file_data content_type =
      Except.error { status_code := 400, detail := "Invalid image file: " ++ msg }) := by
  unfold process_image
  cases hopen : ops.openImage file_data with
  | error e => exact Or.inr ⟨e, by simp [hopen]⟩
  | ok image =>
    cases hsave : ops.save (normalizeImage image) (formatName content_type) with
    | error e => exact Or.inr ⟨e, by simp [hopen, hsave]⟩
    | ok pd => exact Or.inl ⟨(base64Encode pd, pd.length), by simp [hopen, hsave]⟩

/-- Witness for C5 at a concrete undecodable payload. -/
theorem C5_witness :
    (∃ r, process_image failOps [0] "image/png" = Except.ok r) ∨
    (∃ msg, process_image failOps [0] "image/png" =
      Except.error { status_code := 400, detail := "Invalid image file: " ++ msg }) :=
  C5_pipeline_wraps_errors failOps [0] "image/png"

/-- **C8 counterexample.** The claim says the expiry is `now + ttl` whenever a
ttl is supplied; but `create_access_token` tests the supplied `timedelta` with
`if expires_delta:`, so a supplied ttl of 0 minutes is falsy and yields the
15-minute default instead of `now + 0`. -/
theorem C8_counterexample :
    create_access_token_expire 0 (some 0) = 0 + 15 ∧
    create_access_token_expire 0 (some 0) ≠ 0 + 0 := by decide

/-- **C8 (amended).** The token expiry is `now + ttl` when a nonzero ttl is
supplied, and `now + 15` minutes when none is supplied; the register and login
handlers pass the configured `ACCESS_TOKEN_EXPIRE_MINUTES = 30`, so tokens
issued there expire at `now + 30`. -/
theorem C8_token_expiry_amended (now d : Int) (hd : d ≠ 0) :
    create_access_token_expire now (some d) = now + d ∧
    create_access_token_expire now none = now + 15 ∧
    register_token_expire now = now + 30 := by
  refine ⟨?_, rfl, ?_⟩
  · simp [create_access_token_expire, hd]
  · norm_num [register_token_expire, create_access_token_expire,
      ACCESS_TOKEN_EXPIRE_MINUTES]

/-- Witness for the amended C8 at `now = 100`, ttl 30 minutes. -/
theorem C8_witness :
    create_access_token_expire 100 (some 30) = 100 + 30 ∧
    create_access_token_expire 100 none = 100 + 15 :=
  ⟨(C8_token_expiry_amended 100 30 (by decide)).1,
   (C8_token_expiry_amended 100 30 (by decide)).2.1⟩

/-- **C10.** Every content type on the upload allow-list has an exact entry in
`format_map`, so the `.get(content_type, "JPEG")` fall-back is unreachable on
the upload path, and the encoding format used for a stored record is the one
corresponding to its declared content type. -/
theorem C10_format_map_covers_allowed :
    (∀ ct ∈ allowed_types, format_map.lookup ct = some (formatName ct)) ∧
    formatName "image/jpeg" = "JPEG" ∧ formatName "image/jpg" = "JPEG" ∧
    formatName "image/png" = "PNG" ∧ formatName "image/gif" = "GIF" ∧
    formatName "image/webp" = "WEBP" := by decide

/-- Witness for C10 at the concrete type `image/webp`. -/
theorem C10_witness :
    format_map.lookup "image/webp" = some (formatName "image/webp") :=
  C10_format_map_covers_allowed.1 "image/webp" (by decide)

/-- Membership in a `get_images` result implies the record matched the
owner-scoped query. -/
theorem mem_get_images {images : List ImageRecord} {uid : String}
    {priv : Option Bool} {r : ImageRecord} (h : r ∈ get_images images uid priv) :
    imageQueryMatches uid priv r = true := by
  unfold get_images at h
  have h2 := List.take_subset 100 _ h
  have h3 := List.mem_mergeSort.mp h2
  exact (List.mem_filter.mp h3).2

/-- A record matching the query carries the caller's owner id. -/
theorem imageQueryMatches_user {uid : String} {priv : Option Bool}
    {r : ImageRecord} (h : imageQueryMatches uid priv r = true) :
    r.user_id = uid := by
  cases priv <;> simp [imageQueryMatches] at h
  · exact h
  · exact h.1

/-- A record matching a query with a supplied visibility filter has that flag. -/
theorem imageQueryMatches_priv {uid : String} {p : Bool} {r : ImageRecord}
    (h : imageQueryMatches uid (some p) r = true) : r.is_private = p := by
  simp [imageQueryMatches] at h
  exact h.2

/-- **C1.** `get_images` returns only records owned by the caller (so two
distinct users never see a shared record), applies the visibility filter when
the `private` parameter is supplied, is complete for the owner's matching
records whenever they number at most 100, is ordered by creation timestamp
descending, and is capped at 100 results. -/
theorem C1_list_owner_scoped (images : List ImageRecord) (u1 u2 : String)
    (p1 p2 : Option Bool) (hne : u1 ≠ u2) :
    (∀ r ∈ get_images images u1 p1, r.user_id = u1) ∧
    (∀ p, p1 = some p → ∀ r ∈ get_images images u1 p1, r.is_private = p) ∧
    (∀ r ∈ get_images images u1 p1, r ∉ get_images images u2 p2) ∧
    ((images.filter (imageQueryMatches u1 p1)).length ≤ 100 →
      ∀ r ∈ images, imageQueryMatches u1 p1 r = true → r ∈ get_images images u1 p1) ∧
    List.Pairwise (fun a b => b.created_at ≤ a.created_at) (get_images images u1 p1) ∧
    (get_images images u1 p1).length ≤ 100 := by
  have htrans : ∀ a b c : ImageRecord, createdDescLe a b = true →
      createdDescLe b c = true → createdDescLe a c = true := by
    intro a b c hab hbc
    simp only [createdDescLe, decide_eq_true_eq] at hab hbc ⊢
    omega
  have htotal : ∀ a b : ImageRecord, (createdDescLe a b || createdDescLe b a) = true := by
    intro a b
    simp only [createdDescLe, Bool.or_eq_true, decide_eq_true_eq]
    omega
  refine ⟨?_, ?_, ?_, ?_, ?_, ?_⟩
  · intro r hr
    exact imageQueryMatches_user (mem_get_images hr)
  · intro p hp r hr
    subst hp
    exact imageQueryMatches_priv (mem_get_images hr)
  · intro r hr hr2
    have h1 : r.user_id = u1 := imageQueryMatches_user (mem_get_images hr)
    have h2 : r.user_id = u2 := imageQueryMatches_user (mem_get_images hr2)
    exact hne (h1.symm.trans h2)
  · intro hlen r hr hmatch
    unfold get_images
    rw [List.take_of_length_le]
    · exact List.mem_mergeSort.mpr (List.mem_filter.mpr ⟨hr, hmatch⟩)
    · rw [List.length_mergeSort]
      exact hlen
  · have hs := List.sorted_mergeSort htrans htotal (images.filter (imageQueryMatches u1 p1))
    have hs2 : List.Pairwise (fun a b : ImageRecord => b.created_at ≤ a.created_at)
        ((images.filter (imageQueryMatches u1 p1)).mergeSort createdDescLe) := by
      refine hs.imp ?_
      intro a b hab
      simpa [createdDescLe] using hab
    exact hs2.sublist (List.take_sublist 100 _)
  · exact List.length_take_le 100 _

/-- The image record used by the concrete list/delete witnesses. -/
def imgRec (i u : String) (p : Bool) (t : Nat) : ImageRecord :=
  { id := i, user_id := u, filename := "f.png", caption := "", is_private := p,
    image_data := "", content_type := "image/png", file_size := 1, created_at := t }

/-- Witness for C1 on a concrete two-user store. -/
theorem C1_witness :
    (∀ r ∈ get_images [imgRec "i1" "alice" false 5, imgRec "i2" "bob" false 3] "alice" none,
      r.user_id = "alice") ∧
    (∀ r ∈ get_images [imgRec "i1" "alice" false 5, imgRec "i2" "bob" false 3] "alice" none,
      r ∉ get_images [imgRec "i1" "alice" false 5, imgRec "i2" "bob" false 3] "bob" none) := by
  have h := C1_list_owner_scoped [imgRec "i1" "alice" false 5, imgRec "i2" "bob" false 3]
    "alice" "bob" none none (by decide)
  exact ⟨h.1, h.2.2.1⟩

/-- The delete filter, as a proposition on a record. -/
theorem deleteQueryMatches_eq_true {image_id uid : String} {r : ImageRecord} :
    deleteQueryMatches image_id uid r = true ↔ (r.id = image_id ∧ r.user_id = uid) := by
  simp [deleteQueryMatches]

/-- `eraseP` removes at most one element. -/
theorem length_le_eraseP_add_one {α : Type} (p : α → Bool) (l : List α) :
    l.length ≤ (List.eraseP p l).length + 1 := by
  induction l with
  | nil => simp
  | cons a l ih =>
    by_cases hp : p a = true
    · rw [List.eraseP_cons_of_pos hp]
      simp
    · rw [List.eraseP_cons_of_neg hp]
      simpa using ih

/-- After erasing the first match from a list with at most one match, no match
remains. -/
theorem any_eraseP_eq_false {α : Type} (p : α → Bool) (l : List α)
    (h : l.countP p ≤ 1) : (List.eraseP p l).any p = false := by
  induction l with
  | nil => rfl
  | cons a l ih =>
    by_cases hp : p a = true
    · rw [List.eraseP_cons_of_pos hp]
      rw [List.countP_cons_of_pos p l hp] at h
      have h0 : l.countP p = 0 := by omega
      rw [List.any_eq_false]
      exact List.countP_eq_zero.mp h0
    · rw [List.eraseP_cons_of_neg hp]
      rw [List.countP_cons_of_neg p l hp] at h
      simp only [List.any_cons, Bool.or_eq_false_iff]
      exact ⟨by simpa using hp, ih h⟩

/-- **C2.** `delete_image` removes at most one record; when no record matches
both the given id and the caller's owner id it answers HTTP 404 `Image not
found` (never 403) — in particular when the id exists but belongs to another
user — and, provided at most one stored record carries that (id, owner) pair,
deleting the same id a second time answers 404 as well. -/
theorem C2_delete_not_found (dbs : DBState) (image_id uid : String)
    (huniq : dbs.images.countP (deleteQueryMatches image_id uid) ≤ 1) :
    dbs.images.length ≤ (delete_image dbs image_id uid).1.images.length + 1 ∧
    ((∀ r ∈ dbs.images, ¬(r.id = image_id ∧ r.user_id = uid)) →
      (delete_image dbs image_id uid).2 =
        Except.error { status_code := 404, detail := "Image not found" }) ∧
    ((∃ r ∈ dbs.images, r.id = image_id) →
      (∀ r ∈ dbs.images, r.id = image_id → r.user_id ≠ uid) →
      (delete_image dbs image_id uid).2 =
        Except.error { status_code := 404, detail := "Image not found" }) ∧
    (delete_image (delete_image dbs image_id uid).1 image_id uid).2 =
      Except.error { status_code := 404, detail := "Image not found" } := by
  have hnomatch : ∀ (l : List ImageRecord),
      (∀ r ∈ l, ¬(r.id = image_id ∧ r.user_id = uid)) →
      l.any (deleteQueryMatches image_id uid) = false := by
    intro l hl
    rw [List.any_eq_false]
    intro r hr
    rw [deleteQueryMatches_eq_true]
    exact hl r hr
  refine ⟨?_, ?_, ?_, ?_⟩
  · exact length_le_eraseP_add_one _ _
  · intro hno
    simp only [delete_image, hnomatch dbs.images hno]
    rfl
  · intro hex hother
    have hno : ∀ r ∈ dbs.images, ¬(r.id = image_id ∧ r.user_id = uid) := by
      intro r hr hcontra
      exact hother r hr hcontra.1 hcontra.2
    simp only [delete_image, hnomatch dbs.images hno]
    rfl
  · have hafter : ((delete_image dbs image_id uid).1.images).any
        (deleteQueryMatches image_id uid) = false :=
      any_eraseP_eq_false _ _ huniq
    simp only [delete_image] at hafter ⊢
    simp [hafter]

/-- Witness for C2: a store holding only bob's image `i2`; alice's delete of
`i2` answers 404, and after alice deletes her own `i1` a second delete of `i1`
answers 404 too. -/
theorem C2_witness :
    (delete_image { users := [], images := [imgRec "i2" "bob" false 3] } "i2" "alice").2 =
      Except.error { status_code := 404, detail := "Image not found" } ∧
    (delete_image
      (delete_image { users := [], images := [imgRec "i1" "alice" false 5] } "i1" "alice").1
      "i1" "alice").2 =
      Except.error { status_code := 404, detail := "Image not found" } := by
  constructor
  · exact (C2_delete_not_found { users := [], images := [imgRec "i2" "bob" false 3] }
      "i2" "alice" (by decide)).2.2.1 (by decide) (by decide)
  · exact (C2_delete_not_found { users := [], images := [imgRec "i1" "alice" false 5] }
      "i1" "alice" (by decide)).2.2.2

/-- **C9.** `delete_image` never touches the `users` collection; on the 404
path the whole store is unchanged; and on the success path exactly the first
record matching both id and owner is removed, every record before it (and, by
the decomposition, every other record) being kept in place. -/
theorem C9_delete_frame (dbs : DBState) (image_id uid : String) :
    (delete_image dbs image_id uid).1.users = dbs.users ∧
    ((delete_image dbs image_id uid).2 =
        Except.error { status_code := 404, detail := "Image not found" } →
      (delete_image dbs image_id uid).1 = dbs) ∧
    ((delete_image dbs image_id uid).2 = Except.ok "Image deleted successfully" →
      ∃ x l1 l2, dbs.images = l1 ++ x :: l2 ∧
        deleteQueryMatches image_id uid x = true ∧
        (∀ y ∈ l1, ¬deleteQueryMatches image_id uid y = true) ∧
        (delete_image dbs image_id uid).1.images = l1 ++ l2) := by
  refine ⟨rfl, ?_, ?_⟩
  · intro h404
    by_cases hany : dbs.images.any (deleteQueryMatches image_id uid) = true
    · simp only [delete_image, hany] at h404
      simp at h404
    · have hno := List.any_eq_false.mp (Bool.eq_false_iff.mpr hany)
      have herase : List.eraseP (deleteQueryMatches image_id uid) dbs.images = dbs.images :=
        List.eraseP_of_forall_not hno
      simp only [delete_image, herase]
  · intro hok
    by_cases hany : dbs.images.any (deleteQueryMatches image_id uid) = true
    · obtain ⟨x, hx, hpx⟩ := List.any_eq_true.mp hany
      obtain ⟨w, l1, l2, hl1, hpw, hsplit, herase⟩ := List.exists_of_eraseP hx hpx
      exact ⟨w, l1, l2, hsplit, hpw, hl1, by simp only [delete_image]; exact herase⟩
    · simp only [delete_image, Bool.eq_false_iff.mpr hany] at hok
      simp at hok

/-- Witness for C9: deleting alice's image leaves bob's record and the users
collection untouched. -/
theorem C9_witness :
    (delete_image
        { users := [], images := [imgRec "i1" "alice" false 5, imgRec "i2" "bob" false 3] }
        "i1" "alice").1.users = [] ∧
    ∃ x l1 l2,
      [imgRec "i1" "alice" false 5, imgRec "i2" "bob" false 3] = l1 ++ x :: l2 ∧
      deleteQueryMatches "i1" "alice" x = true ∧
      (∀ y ∈ l1, ¬deleteQueryMatches "i1" "alice" y = true) ∧
      (delete_image
        { users := [], images := [imgRec "i1" "alice" false 5, imgRec "i2" "bob" false 3] }
        "i1" "alice").1.images = l1 ++ l2 := by
  have h := C9_delete_frame
    { users := [], images := [imgRec "i1" "alice" false 5, imgRec "i2" "bob" false 3] }
    "i1" "alice"
  exact ⟨h.1, h.2.2 rfl⟩

/-- **C7 counterexample.** The PIL mode `LA` (grayscale with alpha) carries an
alpha channel, so the claim requires it to be converted to RGB; but the code
only tests `image.mode in ("RGBA", "P")` and re-encodes an `LA` image
unconverted. -/
theorem C7_counterexample :
    specAlphaOrPalette "LA" = true ∧
    (normalizeImage { mode := "LA", width := 10, height := 10 }).mode = "LA" ∧
    ("LA" : String) ≠ "RGB" := by
  refine ⟨by decide, rfl, by decide⟩

/-- **C7 (amended).** The pipeline converts to RGB exactly the images whose
decoded mode is literally `RGBA` or `P`; every other mode — including the
alpha-carrying modes `LA`, `PA`, `RGBa`, `La` — is re-encoded unconverted. -/
theorem C7_convert_amended (img : PILImage) :
    ((img.mode = "RGBA" ∨ img.mode = "P") → (normalizeImage img).mode = "RGB") ∧
    (img.mode ≠ "RGBA" → img.mode ≠ "P" → (normalizeImage img).mode = img.mode) := by
  constructor
  · intro h
    simp only [normalizeImage]
    rw [if_pos h]
    by_cases ht : (pilConvert img "RGB").width > 1920 ∨ (pilConvert img "RGB").height > 1080
    · rw [if_pos ht]; rfl
    · rw [if_neg ht]; rfl
  · intro h1 h2
    have hm : (if img.mode = "RGBA" ∨ img.mode = "P" then pilConvert img "RGB" else img) = img :=
      if_neg (by tauto)
    simp only [normalizeImage]
    rw [hm]
    by_cases ht : img.width > 1920 ∨ img.height > 1080
    · rw [if_pos ht]; rfl
    · rw [if_neg ht]

/-- Witness for the amended C7: an RGBA image is converted, an `L` image is not. -/
theorem C7_witness :
    (normalizeImage { mode := "RGBA", width := 10, height := 10 }).mode = "RGB" ∧
    (normalizeImage { mode := "L", width := 10, height := 10 }).mode = "L" :=
  ⟨(C7_convert_amended { mode := "RGBA", width := 10, height := 10 }).1 (Or.inl rfl),
   (C7_convert_amended { mode := "L", width := 10, height := 10 }).2 (by decide) (by decide)⟩

/-- `roundAspect` never returns less than 1. -/
theorem one_le_roundAspect (number : ℚ) (key : Int → ℚ) :
    1 ≤ roundAspect number key :=
  le_max_right _ 1

/-- `roundAspect` respects an integer upper bound (at least 1) dominating its
input. -/
theorem roundAspect_le (number : ℚ) (key : Int → ℚ) (B : Int)
    (hB : 1 ≤ B) (h : number ≤ (B : ℚ)) : roundAspect number key ≤ B := by
  unfold roundAspect
  have hceil : ⌈number⌉ ≤ B := Int.ceil_le.mpr h
  have hfloor : ⌊number⌋ ≤ B := le_trans (Int.floor_le_ceil number) hceil
  refine max_le ?_ hB
  split
  · exact hfloor
  · exact hceil

/-- `roundAspect` lands within 1 of its positive input. -/
theorem roundAspect_close (number : ℚ) (key : Int → ℚ) (h : 0 < number) :
    |((roundAspect number key : Int) : ℚ) - number| ≤ 1 := by
  unfold roundAspect
  have hceil1 : (1 : Int) ≤ ⌈number⌉ := Int.ceil_pos.mpr h
  have hfl : ((⌊number⌋ : Int) : ℚ) ≤ number := Int.floor_le number
  have hfg : number - 1 < ((⌊number⌋ : Int) : ℚ) := Int.sub_one_lt_floor number
  have hfa : number < ((⌊number⌋ : Int) : ℚ) + 1 := Int.lt_floor_add_one number
  have hcl : number ≤ ((⌈number⌉ : Int) : ℚ) := Int.le_ceil number
  have hcg : ((⌈number⌉ : Int) : ℚ) < number + 1 := Int.ceil_lt_add_one number
  rw [abs_le]
  split
  · rcases le_or_lt 1 ⌊number⌋ with h1 | h1
    · rw [max_eq_left h1]
      constructor <;> linarith
    · rw [max_eq_right h1.le]
      have h0 : ((⌊number⌋ : Int) : ℚ) ≤ 0 := by exact_mod_cast (by omega : ⌊number⌋ ≤ 0)
      push_cast
      constructor <;> linarith
  · rw [max_eq_left hceil1]
    constructor <;> linarith

/-- The three facts needed about a rounded dimension: it fits the bound, is at
least 1, and is within 1 of the exact rational value. -/
theorem roundAspect_toNat_spec (N : ℚ) (key : Int → ℚ) (B : Nat) (hB : 1 ≤ B)
    (hN0 : 0 < N) (hNle : N ≤ (B : ℚ)) :
    (roundAspect N key).toNat ≤ B ∧ 1 ≤ (roundAspect N key).toNat ∧
    |(((roundAspect N key).toNat : Nat) : ℚ) - N| ≤ 1 := by
  have h1 := one_le_roundAspect N key
  have h2 : roundAspect N key ≤ (B : Int) :=
    roundAspect_le N key (B : Int) (by exact_mod_cast hB) (by exact_mod_cast hNle)
  have h3 := roundAspect_close N key hN0
  have h4 : (((roundAspect N key).toNat : Nat) : Int) = roundAspect N key :=
    Int.toNat_of_nonneg (by omega)
  refine ⟨?_, ?_, ?_⟩
  · exact Int.toNat_le.mpr h2
  · omega
  · have h5 : ((((roundAspect N key).toNat : Nat) : Int) : ℚ) = ((roundAspect N key : Int) : ℚ) := by
      exact_mod_cast h4
    rw [show ((((roundAspect N key).toNat : Nat)) : ℚ) = ((((roundAspect N key).toNat : Nat) : Int) : ℚ) by push_cast; ring]
    rw [h5]
    exact h3

/-- Fitting behaviour of the thumbnail size computation on an image that does
not fit the box: both result dimensions fit the box, both are at least 1, and
the aspect ratio is preserved up to one rounding unit on the recomputed
dimension. -/
theorem pilThumbnailSize_spec (w h bw bh : Nat) (hw : 1 ≤ w) (hh : 1 ≤ h)
    (hbw : 1 ≤ bw) (hbh : 1 ≤ bh) (htrig : ¬(bw ≥ w ∧ bh ≥ h)) :
    (pilThumbnailSize w h bw bh).1 ≤ bw ∧
    (pilThumbnailSize w h bw bh).2 ≤ bh ∧
    1 ≤ (pilThumbnailSize w h bw bh).1 ∧
    1 ≤ (pilThumbnailSize w h bw bh).2 ∧
    |((pilThumbnailSize w h bw bh).1 : Int) * (h : Int) -
      ((pilThumbnailSize w h bw bh).2 : Int) * (w : Int)| ≤ ((max w h : Nat) : Int) := by
  have hw0 : (0 : ℚ) < (w : ℚ) := by exact_mod_cast hw
  have hh0 : (0 : ℚ) < (h : ℚ) := by exact_mod_cast hh
  have hbw0 : (0 : ℚ) < (bw : ℚ) := by exact_mod_cast hbw
  have hbh0 : (0 : ℚ) < (bh : ℚ) := by exact_mod_cast hbh
  have hhne : (h : ℚ) ≠ 0 := ne_of_gt hh0
  have hwne : (w : ℚ) ≠ 0 := ne_of_gt hw0
  have hbhne : (bh : ℚ) ≠ 0 := ne_of_gt hbh0
  have hbwne : (bw : ℚ) ≠ 0 := ne_of_gt hbw0
  have haspect0 : (0 : ℚ) < (w : ℚ) / (h : ℚ) := div_pos hw0 hh0
  unfold pilThumbnailSize
  rw [if_neg htrig]
  dsimp only
  by_cases hcase : (bw : ℚ) / (bh : ℚ) ≥ (w : ℚ) / (h : ℚ)
  · rw [if_pos hcase]
    dsimp only
    have hNle : (bh : ℚ) * ((w : ℚ) / (h : ℚ)) ≤ (bw : ℚ) := by
      have h1 : (bh : ℚ) * ((w : ℚ) / (h : ℚ)) ≤ (bh : ℚ) * ((bw : ℚ) / (bh : ℚ)) :=
        mul_le_mul_of_nonneg_left hcase (le_of_lt hbh0)
      have h2 : (bh : ℚ) * ((bw : ℚ) / (bh : ℚ)) = (bw : ℚ) := by field_simp
      linarith
    obtain ⟨ha, hb, hc⟩ := roundAspect_toNat_spec ((bh : ℚ) * ((w : ℚ) / (h : ℚ)))
      (thumbKeyW ((w : ℚ) / (h : ℚ)) bh) bw hbw (by positivity) hNle
    refine ⟨ha, le_refl bh, hb, hbh, ?_⟩
    have hNh : ((bh : ℚ) * ((w : ℚ) / (h : ℚ))) * (h : ℚ) = (bh : ℚ) * (w : ℚ) := by
      field_simp
    have hmul : |(((roundAspect ((bh : ℚ) * ((w : ℚ) / (h : ℚ)))
        (thumbKeyW ((w : ℚ) / (h : ℚ)) bh)).toNat : Nat) : ℚ) * (h : ℚ) -
        (bh : ℚ) * (w : ℚ)| ≤ (h : ℚ) := by
      rw [← hNh]
      rw [show (((roundAspect ((bh : ℚ) * ((w : ℚ) / (h : ℚ)))
            (thumbKeyW ((w : ℚ) / (h : ℚ)) bh)).toNat : Nat) : ℚ) * (h : ℚ) -
          ((bh : ℚ) * ((w : ℚ) / (h : ℚ))) * (h : ℚ) =
          ((((roundAspect ((bh : ℚ) * ((w : ℚ) / (h : ℚ)))
            (thumbKeyW ((w : ℚ) / (h : ℚ)) bh)).toNat : Nat) : ℚ) -
          (bh : ℚ) * ((w : ℚ) / (h : ℚ))) * (h : ℚ) from by ring]
      rw [abs_mul, abs_of_pos hh0]
      calc |(((roundAspect ((bh : ℚ) * ((w : ℚ) / (h : ℚ)))
            (thumbKeyW ((w : ℚ) / (h : ℚ)) bh)).toNat : Nat) : ℚ) -
            (bh : ℚ) * ((w : ℚ) / (h : ℚ))| * (h : ℚ) ≤ 1 * (h : ℚ) :=
          mul_le_mul_of_nonneg_right hc (le_of_lt hh0)
        _ = (h : ℚ) := one_mul _
    have hmax : (h : ℚ) ≤ ((max w h : Nat) : ℚ) := by exact_mod_cast le_max_right w h
    have hfin : |(((roundAspect ((bh : ℚ) * ((w : ℚ) / (h : ℚ)))
        (thumbKeyW ((w : ℚ) / (h : ℚ)) bh)).toNat : Nat) : ℚ) * (h : ℚ) -
        (bh : ℚ) * (w : ℚ)| ≤ ((max w h : Nat) : ℚ) := le_trans hmul hmax
    exact_mod_cast hfin
  · rw [if_neg hcase]
    dsimp only
    have hcase2 : (bw : ℚ) / (bh : ℚ) < (w : ℚ) / (h : ℚ) := not_le.mp hcase
    have hNle : (bw : ℚ) / ((w : ℚ) / (h : ℚ)) ≤ (bh : ℚ) := by
      have hlt : (bw : ℚ) / ((w : ℚ) / (h : ℚ)) < (bw : ℚ) / ((bw : ℚ) / (bh : ℚ)) :=
        div_lt_div_of_pos_left hbw0 (div_pos hbw0 hbh0) hcase2
      have heq : (bw : ℚ) / ((bw : ℚ) / (bh : ℚ)) = (bh : ℚ) := by
        rw [div_div_eq_mul_div]
        exact mul_div_cancel_left₀ _ hbwne
      linarith
    obtain ⟨ha, hb, hc⟩ := roundAspect_toNat_spec ((bw : ℚ) / ((w : ℚ) / (h : ℚ)))
      (thumbKeyH ((w : ℚ) / (h : ℚ)) bw) bh hbh (div_pos hbw0 haspect0) hNle
    refine ⟨le_refl bw, ha, hbw, hb, ?_⟩
    have hNw : ((bw : ℚ) / ((w : ℚ) / (h : ℚ))) * (w : ℚ) = (bw : ℚ) * (h : ℚ) := by
      field_simp
    have hmul : |(((roundAspect ((bw : ℚ) / ((w : ℚ) / (h : ℚ)))
        (thumbKeyH ((w : ℚ) / (h : ℚ)) bw)).toNat : Nat) : ℚ) * (w : ℚ) -
        (bw : ℚ) * (h : ℚ)| ≤ (w : ℚ) := by
      rw [← hNw]
      rw [show (((roundAspect ((bw : ℚ) / ((w : ℚ) / (h : ℚ)))
            (thumbKeyH ((w : ℚ) / (h : ℚ)) bw)).toNat : Nat) : ℚ) * (w : ℚ) -
          ((bw : ℚ) / ((w : ℚ) / (h : ℚ))) * (w : ℚ) =
          ((((roundAspect ((bw : ℚ) / ((w : ℚ) / (h : ℚ)))
            (thumbKeyH ((w : ℚ) / (h : ℚ)) bw)).toNat : Nat) : ℚ) -
          (bw : ℚ) / ((w : ℚ) / (h : ℚ))) * (w : ℚ) from by ring]
      rw [abs_mul, abs_of_pos hw0]
      calc |(((roundAspect ((bw : ℚ) / ((w : ℚ) / (h : ℚ)))
            (thumbKeyH ((w : ℚ) / (h : ℚ)) bw)).toNat : Nat) : ℚ) -
            (bw : ℚ) / ((w : ℚ) / (h : ℚ))| * (w : ℚ) ≤ 1 * (w : ℚ) :=
          mul_le_mul_of_nonneg_right hc (le_of_lt hw0)
        _ = (w : ℚ) := one_mul _
    have hmax : (w : ℚ) ≤ ((max w h : Nat) : ℚ) := by exact_mod_cast le_max_left w h
    have hfin : |(bw : ℚ) * (h : ℚ) -
        (((roundAspect ((bw : ℚ) / ((w : ℚ) / (h : ℚ)))
        (thumbKeyH ((w : ℚ) / (h : ℚ)) bw)).toNat : Nat) : ℚ) * (w : ℚ)| ≤
        ((max w h : Nat) : ℚ) := by
      rw [abs_sub_comm]
      exact le_trans hmul hmax
    exact_mod_cast hfin

/-- **C6.** For a decoded image (dimensions at least 1x1): when either
dimension exceeds the 1920x1080 bound, the normalized image fits within
1920x1080, keeps both dimensions at least 1, and preserves the aspect ratio
within rounding (the cross products of the dimensions differ by at most one
rounding unit of the larger original dimension); an image already within
bounds keeps its original resolution. -/
theorem C6_downscale (img : PILImage) (hw : 1 ≤ img.width) (hh : 1 ≤ img.height) :
    ((1920 < img.width ∨ 1080 < img.height) →
      (normalizeImage img).width ≤ 1920 ∧ (normalizeImage img).height ≤ 1080 ∧
      1 ≤ (normalizeImage img).width ∧ 1 ≤ (normalizeImage img).height ∧
      |((normalizeImage img).width : Int) * (img.height : Int) -
        ((normalizeImage img).height : Int) * (img.width : Int)| ≤
        ((max img.width img.height : Nat) : Int)) ∧
    (img.width ≤ 1920 → img.height ≤ 1080 →
      (normalizeImage img).width = img.width ∧ (normalizeImage img).height = img.height) := by
  have hw1 : (if img.mode = "RGBA" ∨ img.mode = "P" then pilConvert img "RGB" else img).width
      = img.width := by
    split <;> rfl
  have hh1 : (if img.mode = "RGBA" ∨ img.mode = "P" then pilConvert img "RGB" else img).height
      = img.height := by
    split <;> rfl
  constructor
  · intro htrig
    have hcond : (if img.mode = "RGBA" ∨ img.mode = "P" then pilConvert img "RGB" else img).width
        > 1920 ∨
        (if img.mode = "RGBA" ∨ img.mode = "P" then pilConvert img "RGB" else img).height
        > 1080 := by
      rw [hw1, hh1]
      exact htrig
    simp only [normalizeImage]
    rw [if_pos hcond]
    simp only [pilThumbnail]
    rw [hw1, hh1]
    exact pilThumbnailSize_spec img.width img.height 1920 1080 hw hh
      (by norm_num) (by norm_num) (by omega)
  · intro hle1 hle2
    have hcond : ¬((if img.mode = "RGBA" ∨ img.mode = "P" then pilConvert img "RGB" else img).width
        > 1920 ∨
        (if img.mode = "RGBA" ∨ img.mode = "P" then pilConvert img "RGB" else img).height
        > 1080) := by
      rw [hw1, hh1]
      omega
    simp only [normalizeImage]
    rw [if_neg hcond]
    exact ⟨hw1, hh1⟩

/-- Witness for C6: a 3840x2160 image is downscaled to fit 1920x1080, and a
100x100 image is left alone. -/
theorem C6_witness :
    (normalizeImage { mode := "RGB", width := 3840, height := 2160 }).width ≤ 1920 ∧
    (normalizeImage { mode := "RGB", width := 3840, height := 2160 }).height ≤ 1080 ∧
    (normalizeImage { mode := "RGB", width := 100, height := 100 }).width = 100 := by
  have h1 := C6_downscale { mode := "RGB", width := 3840, height := 2160 }
    (by decide) (by decide)
  have h2 := C6_downscale { mode := "RGB", width := 100, height := 100 }
    (by decide) (by decide)
  obtain ⟨ha, hb, _⟩ := h1.1 (by decide)
  exact ⟨ha, hb, (h2.2 (by decide) (by decide)).1⟩
